import Mathlib

/-!
Verification of the head-pose estimation pipeline.

The pipeline has two components sharing one architecture:
a learned path (68 facial landmarks → pairwise-distance features →
standardization → regression model) and a geometric path (6 BlazeFace
keypoints plus a bounding box → closed-form roll/pitch/yaw), followed by a
deadband recorder of pose history and a CSV exporter.

JavaScript numbers are modelled as real numbers.  Fallible array accesses
(which throw in JavaScript) are modelled with `Option`.
-/

/-- Euclidean distance between two 2-D landmarks, as computed in the source:
`Math.sqrt(Math.pow(p1.x - p2.x, 2) + Math.pow(p1.y - p2.y, 2))`. -/
noncomputable def euclid (p q : ℝ × ℝ) : ℝ :=
  Real.sqrt ((p.1 - q.1) ^ 2 + (p.2 - q.2) ^ 2)

/-- The index pairs visited by the source's nested loops
`for (i = 0; i < n; i++) for (j = i + 1; j < n; j++)`:
`i` is the outer loop, `j` the inner loop, both ascending, with `i < j`. -/
def pairIndices (n : ℕ) : List (ℕ × ℕ) :=
  (List.range n).flatMap (fun i =>
    ((List.range n).filter (fun j => i < j)).map (fun j => (i, j)))

/-- Walks a list of index pairs, pushing the Euclidean distance of each
addressed landmark pair; an out-of-range access (a thrown `TypeError` on
`undefined` in the source) aborts with `none`. -/
noncomputable def pairDistances (landmarks : List (ℝ × ℝ)) :
    List (ℕ × ℕ) → Option (List ℝ)
  | [] => some []
  | ij :: rest =>
    match landmarks[ij.1]?, landmarks[ij.2]? with
    | some p, some q => (pairDistances landmarks rest).map (fun ds => euclid p q :: ds)
    | _, _ => none

/-- The source's `computeFeatures`: the loop bounds are hardcoded to 68
regardless of the length of the input landmark list. -/
noncomputable def computeFeatures (landmarks : List (ℝ × ℝ)) : Option (List ℝ) :=
  pairDistances landmarks (pairIndices 68)

/-- Membership in the canonical pair enumeration. -/
lemma mem_pairIndices {n i j : ℕ} : (i, j) ∈ pairIndices n ↔ i < j ∧ j < n := by
  simp only [pairIndices, List.mem_flatMap, List.mem_map, List.mem_filter,
    List.mem_range, decide_eq_true_eq]
  constructor
  · rintro ⟨a, _, b, ⟨hb, hab⟩, heq⟩
    obtain ⟨rfl, rfl⟩ := Prod.mk.injEq .. ▸ heq
    exact ⟨hab, hb⟩
  · rintro ⟨hij, hj⟩
    exact ⟨i, lt_trans hij hj, j, ⟨hj, hij⟩, rfl⟩

lemma get?_eq_some_getD {α : Type} (l : List α) (d : α) :
    ∀ i : ℕ, i < l.length → l[i]? = some (l.getD i d) := by
  induction l with
  | nil => intro i h; simp at h
  | cons a t ih =>
    intro i h
    cases i with
    | zero => simp
    | succ k =>
      simp only [List.length_cons, Nat.succ_lt_succ_iff] at h
      simpa using ih k h

lemma get?_eq_none_of_ge {α : Type} (l : List α) :
    ∀ i : ℕ, l.length ≤ i → l[i]? = none := by
  induction l with
  | nil => intro i _; rfl
  | cons a t ih =>
    intro i h
    cases i with
    | zero => simp at h
    | succ k =>
      simp only [List.length_cons, Nat.succ_le_succ_iff] at h
      simpa using ih k h

lemma getD_eq_of_get? {α : Type} {l : List α} {x : α} (d : α) :
    ∀ {i : ℕ}, l[i]? = some x → l.getD i d = x := by
  induction l with
  | nil => intro i h; simp at h
  | cons a t ih =>
    intro i h
    cases i with
    | zero =>
      have hax : a = x := by simpa using h
      simpa using hax
    | succ k => simpa using ih (by simpa using h)

/-- When every visited pair is within range, `pairDistances` succeeds and
produces exactly the mapped distances. -/
lemma pairDistances_eq_map (L : List (ℝ × ℝ)) (ps : List (ℕ × ℕ))
    (h : ∀ ij ∈ ps, ij.1 < L.length ∧ ij.2 < L.length) :
    pairDistances L ps =
      some (ps.map (fun ij => euclid (L.getD ij.1 (0, 0)) (L.getD ij.2 (0, 0)))) := by
  induction ps with
  | nil => rfl
  | cons ij rest ih =>
    have h1 := (h ij (List.mem_cons_self ij rest)).1
    have h2 := (h ij (List.mem_cons_self ij rest)).2
    have e1 := get?_eq_some_getD L (0, 0) ij.1 h1
    have e2 := get?_eq_some_getD L (0, 0) ij.2 h2
    have ihr := ih (fun p hp => h p (List.mem_cons_of_mem ij hp))
    simp only [pairDistances, e1, e2, ihr, Option.map_some']
    rfl

/-- If some visited pair's second index is out of range, `pairDistances`
aborts with `none`. -/
lemma pairDistances_eq_none (L : List (ℝ × ℝ)) (ps : List (ℕ × ℕ))
    (ij : ℕ × ℕ) (hmem : ij ∈ ps) (hnone : L[ij.2]? = none) :
    pairDistances L ps = none := by
  induction ps with
  | nil => simp at hmem
  | cons hd rest ih =>
    rcases List.mem_cons.mp hmem with heq | htl
    · subst heq
      cases hfst : L[ij.1]? with
      | none => simp [pairDistances, hfst, hnone]
      | some p => simp [pairDistances, hfst, hnone]
    · cases hfst : L[hd.1]? with
      | none => simp [pairDistances, hfst]
      | some p =>
        cases hsnd : L[hd.2]? with
        | none => simp [pairDistances, hfst, hsnd]
        | some q => simp [pairDistances, hfst, hsnd, ih htl]

/-- `computeFeatures` succeeds on any landmark list with at least 68 points,
computing the full table of pairwise distances of the first 68 points. -/
lemma computeFeatures_eq_of_le (L : List (ℝ × ℝ)) (h : 68 ≤ L.length) :
    computeFeatures L =
      some ((pairIndices 68).map
        (fun ij => euclid (L.getD ij.1 (0, 0)) (L.getD ij.2 (0, 0)))) := by
  apply pairDistances_eq_map
  intro ij hij
  rcases ij with ⟨i, j⟩
  rcases mem_pairIndices.mp hij with ⟨hij', hj⟩
  exact ⟨lt_of_lt_of_le (lt_trans hij' hj) h, lt_of_lt_of_le hj h⟩

/-- `computeFeatures` aborts (models the thrown `TypeError`) on any landmark
list with fewer than 68 points. -/
lemma computeFeatures_eq_none_of_short (L : List (ℝ × ℝ)) (h : L.length < 68) :
    computeFeatures L = none := by
  apply pairDistances_eq_none L _ (66, 67)
  · exact mem_pairIndices.mpr (by omega)
  · exact get?_eq_none_of_ge L 67 (by omega)

/-- The 4-point synthetic landmark set of the spec's regression scenario. -/
noncomputable def fourPoints : List (ℝ × ℝ) := [(0, 0), (1, 0), (0, 1), (1, 1)]

/-- A 68-point landmark set used as a concrete witness input. -/
noncomputable def sampleLandmarks68 : List (ℝ × ℝ) :=
  (List.range 68).map (fun (i : ℕ) => ((i : ℝ), 0))

/-- A 69-point landmark set used as a concrete counterexample input. -/
noncomputable def sampleLandmarks69 : List (ℝ × ℝ) :=
  (List.range 69).map (fun (i : ℕ) => ((i : ℝ), 0))

lemma length_filter_range_lt (n i : ℕ) :
    ((List.range n).filter (fun j => i < j)).length = n - (i + 1) := by
  induction n with
  | zero => simp
  | succ m ih =>
    rw [List.range_succ, List.filter_append, List.length_append, ih]
    simp only [List.filter_cons, List.filter_nil]
    by_cases h : i < m
    · rw [if_pos (by simpa using h)]
      simp only [List.length_cons, List.length_nil]
      omega
    · rw [if_neg (by simpa using h)]
      simp only [List.length_nil]
      omega

lemma pairIndices_68_length : (pairIndices 68).length = 2278 := by
  unfold pairIndices
  rw [List.length_flatMap]
  simp only [Function.comp_def, List.length_map, length_filter_range_lt]
  decide

lemma sampleLandmarks68_length : sampleLandmarks68.length = 68 := by
  unfold sampleLandmarks68
  rw [List.length_map, List.length_range]

lemma sampleLandmarks69_length : sampleLandmarks69.length = 69 := by
  unfold sampleLandmarks69
  rw [List.length_map, List.length_range]

lemma pairIndices_4_eq :
    pairIndices 4 = [(0, 1), (0, 2), (0, 3), (1, 2), (1, 3), (2, 3)] := by rfl

/-- C1: for a landmark set of exactly 68 points (the hardcoded loop bound),
`computeFeatures` returns a feature vector of length 68·67/2 whose element k
is the Euclidean distance of the landmark pair at canonical index k (outer
loop i, inner loop j, ascending, i < j); the canonical enumeration restricted
to 4 points is (0,1)(0,2)(0,3)(1,2)(1,3)(2,3) with distances
[1, 1, √2, √2, 1, 1] on the synthetic square, but `computeFeatures` itself,
being hardcoded to 68 points, fails on the 4-point input instead of
returning that vector. -/
theorem computeFeatures_pairwise :
    (∀ L : List (ℝ × ℝ), L.length = 68 →
      ∃ F, computeFeatures L = some F ∧ F.length = 68 * 67 / 2 ∧
        ∀ (k i j : ℕ) (p q : ℝ × ℝ), (pairIndices 68)[k]? = some (i, j) →
          L[i]? = some p → L[j]? = some q → F[k]? = some (euclid p q))
    ∧ pairIndices 4 = [(0, 1), (0, 2), (0, 3), (1, 2), (1, 3), (2, 3)]
    ∧ (pairIndices 4).map
        (fun ij => euclid (fourPoints.getD ij.1 (0, 0)) (fourPoints.getD ij.2 (0, 0)))
        = [1, 1, Real.sqrt 2, Real.sqrt 2, 1, 1]
    ∧ computeFeatures fourPoints = none := by
  refine ⟨?_, pairIndices_4_eq, ?_, ?_⟩
  · intro L hL
    refine ⟨_, computeFeatures_eq_of_le L (by omega), ?_, ?_⟩
    · rw [List.length_map, pairIndices_68_length]
    · intro k i j p q hk hi hj
      rw [List.getElem?_map, hk, Option.map_some']
      rw [getD_eq_of_get? (0, 0) hi, getD_eq_of_get? (0, 0) hj]
  · rw [pairIndices_4_eq]
    show [euclid (0, 0) (1, 0), euclid (0, 0) (0, 1), euclid (0, 0) (1, 1),
      euclid (1, 0) (0, 1), euclid (1, 0) (1, 1), euclid (0, 1) (1, 1)] = _
    norm_num [euclid, Real.sqrt_one]
  · exact computeFeatures_eq_none_of_short fourPoints (by simp [fourPoints])

/-- Witness for C1 at a concrete 68-point landmark set. -/
theorem computeFeatures_pairwise_witness :
    sampleLandmarks68.length = 68 ∧
    ∃ F, computeFeatures sampleLandmarks68 = some F ∧ F.length = 68 * 67 / 2 ∧
      ∀ (k i j : ℕ) (p q : ℝ × ℝ), (pairIndices 68)[k]? = some (i, j) →
        sampleLandmarks68[i]? = some p → sampleLandmarks68[j]? = some q →
          F[k]? = some (euclid p q) :=
  ⟨sampleLandmarks68_length,
    computeFeatures_pairwise.1 sampleLandmarks68 sampleLandmarks68_length⟩

/-- Counterexample for C1 as stated: on the 4-point synthetic input the
extractor does not return [1, 1, √2, √2, 1, 1]; it fails (out-of-range
landmark access), because its loops are hardcoded to 68 points. -/
theorem computeFeatures_fourPoint_fails : computeFeatures fourPoints = none :=
  computeFeatures_eq_none_of_short fourPoints (by simp [fourPoints])

/-- C6: `computeFeatures` performs no length validation.  An input with at
least 68 points is processed as if it had exactly 68 (a feature vector is
computed and the tick proceeds to produce a candidate pose), and an input
with fewer than 68 points makes the extraction fail with an out-of-range
access (an exception), not an "invalid input" report. -/
theorem computeFeatures_no_length_validation :
    (∀ L : List (ℝ × ℝ), 68 ≤ L.length → (computeFeatures L).isSome = true)
    ∧ (∀ L : List (ℝ × ℝ), L.length < 68 → computeFeatures L = none) :=
  ⟨fun L h => by rw [computeFeatures_eq_of_le L h]; rfl,
    fun L h => computeFeatures_eq_none_of_short L h⟩

/-- Witness for C6 at a concrete 69-point landmark set. -/
theorem computeFeatures_no_length_validation_witness :
    68 ≤ sampleLandmarks69.length ∧ (computeFeatures sampleLandmarks69).isSome = true :=
  ⟨by rw [sampleLandmarks69_length]; norm_num,
    computeFeatures_no_length_validation.1 sampleLandmarks69
      (by rw [sampleLandmarks69_length]; norm_num)⟩

/-- Counterexample for C6 as stated: a 69-point input (length ≠ 68) is not
rejected; a feature vector is computed from it, so the tick does produce a
candidate pose. -/
theorem computeFeatures_accepts_69 : (computeFeatures sampleLandmarks69).isSome = true := by
  rw [computeFeatures_eq_of_le sampleLandmarks69 (by rw [sampleLandmarks69_length]; norm_num)]
  rfl

/-- A BlazeFace detection: bounding box corners plus the 6 ordered keypoints
(indices 0-5 of the source's `landmarks` array: right eye, left eye, nose,
mouth, right ear, left ear).  The ear keypoints are not read by the pose
computation. -/
structure BlazeFace where
  topLeft : ℝ × ℝ
  bottomRight : ℝ × ℝ
  rightEye : ℝ × ℝ
  leftEye : ℝ × ℝ
  nose : ℝ × ℝ
  mouth : ℝ × ℝ
  rightEar : ℝ × ℝ
  leftEar : ℝ × ℝ

/-- A head pose sample as in the source's `HeadPose` interface. -/
structure HeadPose where
  roll : ℝ
  pitch : ℝ
  yaw : ℝ
  timestamp : ℤ

/-- Model of JavaScript `Math.atan2` on real arguments. -/
noncomputable def atan2 (y x : ℝ) : ℝ :=
  if 0 < x then Real.arctan (y / x)
  else if x < 0 then
    (if 0 ≤ y then Real.arctan (y / x) + Real.pi else Real.arctan (y / x) - Real.pi)
  else if 0 < y then Real.pi / 2
  else if y < 0 then -(Real.pi / 2)
  else 0

/-- The source's `calculatePoseFromFace`, transcribed line by line; the final
record clamps each angle with `Math.max(-90, Math.min(90, v))` and stamps the
current time. -/
noncomputable def calculatePoseFromFace (face : BlazeFace)
    (videoWidth videoHeight : ℝ) (now : ℤ) : HeadPose :=
  let box := face.topLeft
  let bottomRight := face.bottomRight
  let centerX := (box.1 + bottomRight.1) / 2
  let centerY := (box.2 + bottomRight.2) / 2
  let width := bottomRight.1 - box.1
  let height := bottomRight.2 - box.2
  let normalizedX := (centerX / videoWidth - 0.5) * 2
  let eyeCenterX := (face.rightEye.1 + face.leftEye.1) / 2
  let noseOffsetX := face.nose.1 - eyeCenterX
  let yaw := normalizedX * 45 + (noseOffsetX / width) * 30
  let normalizedY := (centerY / videoHeight - 0.5) * 2
  let noseToMouthDist := face.mouth.2 - face.nose.2
  let expectedDist := height * 0.2
  let pitchFromDist := ((noseToMouthDist - expectedDist) / expectedDist) * 20
  let pitch := normalizedY * 30 + pitchFromDist
  let eyeDx := face.leftEye.1 - face.rightEye.1
  let eyeDy := face.leftEye.2 - face.rightEye.2
  let roll := atan2 eyeDy eyeDx * (180 / Real.pi)
  { roll := max (-90) (min 90 roll)
    pitch := max (-90) (min 90 pitch)
    yaw := max (-90) (min 90 yaw)
    timestamp := now }

/-- The unclamped roll stated by the spec:
`atan2(leftEye.y - rightEye.y, leftEye.x - rightEye.x)` in degrees. -/
noncomputable def rawRoll (face : BlazeFace) : ℝ :=
  atan2 (face.leftEye.2 - face.rightEye.2) (face.leftEye.1 - face.rightEye.1)
    * (180 / Real.pi)

/-- The unclamped yaw stated by the spec:
`normalizedX·45 + (noseOffsetX / boxWidth)·30` with
`normalizedX = (centerX/W - 0.5)·2` and `noseOffsetX = nose.x - eyeCenterX`. -/
noncomputable def rawYaw (face : BlazeFace) (videoWidth : ℝ) : ℝ :=
  ((face.topLeft.1 + face.bottomRight.1) / 2 / videoWidth - 0.5) * 2 * 45
    + ((face.nose.1 - (face.rightEye.1 + face.leftEye.1) / 2)
        / (face.bottomRight.1 - face.topLeft.1)) * 30

/-- The unclamped pitch stated by the spec:
`normalizedY·30 + ((noseToMouthDist - expectedDist)/expectedDist)·20`,
`expectedDist = boxHeight·0.2`. -/
noncomputable def rawPitch (face : BlazeFace) (videoHeight : ℝ) : ℝ :=
  ((face.topLeft.2 + face.bottomRight.2) / 2 / videoHeight - 0.5) * 2 * 30
    + (((face.mouth.2 - face.nose.2) - (face.bottomRight.2 - face.topLeft.2) * 0.2)
        / ((face.bottomRight.2 - face.topLeft.2) * 0.2)) * 20

/-- C2: `calculatePoseFromFace` returns exactly the spec's three formulas,
each clamped to [-90, 90]; in particular an unclamped yaw of 150° is output
as 90° and an unclamped yaw of -150° as -90°. -/
theorem calculatePoseFromFace_spec (face : BlazeFace) (W H : ℝ) (now : ℤ) :
    (calculatePoseFromFace face W H now).roll = max (-90) (min 90 (rawRoll face))
    ∧ (calculatePoseFromFace face W H now).pitch = max (-90) (min 90 (rawPitch face H))
    ∧ (calculatePoseFromFace face W H now).yaw = max (-90) (min 90 (rawYaw face W))
    ∧ (rawYaw face W = 150 → (calculatePoseFromFace face W H now).yaw = 90)
    ∧ (rawYaw face W = -150 → (calculatePoseFromFace face W H now).yaw = -90)
    ∧ (-90 ≤ (calculatePoseFromFace face W H now).roll
        ∧ (calculatePoseFromFace face W H now).roll ≤ 90)
    ∧ (-90 ≤ (calculatePoseFromFace face W H now).pitch
        ∧ (calculatePoseFromFace face W H now).pitch ≤ 90)
    ∧ (-90 ≤ (calculatePoseFromFace face W H now).yaw
        ∧ (calculatePoseFromFace face W H now).yaw ≤ 90)
    ∧ (calculatePoseFromFace face W H now).timestamp = now := by
  have hyaw : (calculatePoseFromFace face W H now).yaw = max (-90) (min 90 (rawYaw face W)) := rfl
  refine ⟨rfl, rfl, hyaw, ?_, ?_, ?_, ?_, ?_, rfl⟩
  · intro h
    rw [hyaw, h]
    norm_num
  · intro h
    rw [hyaw, h]
    norm_num
  · exact ⟨le_max_left _ _, max_le (by norm_num) (min_le_left _ _)⟩
  · exact ⟨le_max_left _ _, max_le (by norm_num) (min_le_left _ _)⟩
  · exact ⟨le_max_left _ _, max_le (by norm_num) (min_le_left _ _)⟩

/-- A detection whose unclamped yaw is exactly 150°. -/
noncomputable def face640 : BlazeFace :=
  { topLeft := (620, 0), bottomRight := (660, 40), rightEye := (600, 10),
    leftEye := (640, 10), nose := (760, 20), mouth := (640, 28),
    rightEar := (590, 12), leftEar := (650, 12) }

/-- A detection whose unclamped yaw is exactly -150°. -/
noncomputable def faceNeg : BlazeFace :=
  { topLeft := (-20, 0), bottomRight := (20, 40), rightEye := (-60, 10),
    leftEye := (-20, 10), nose := (-180, 20), mouth := (0, 28),
    rightEar := (-70, 12), leftEar := (-10, 12) }

/-- Witness for C2: concrete detections with unclamped yaw 150° and -150°
are clamped to 90° and -90°. -/
theorem calculatePoseFromFace_spec_witness :
    rawYaw face640 640 = 150 ∧ (calculatePoseFromFace face640 640 480 0).yaw = 90
    ∧ rawYaw faceNeg 640 = -150 ∧ (calculatePoseFromFace faceNeg 640 480 0).yaw = -90 := by
  have h1 : rawYaw face640 640 = 150 := by norm_num [rawYaw, face640]
  have h2 : rawYaw faceNeg 640 = -150 := by norm_num [rawYaw, faceNeg]
  exact ⟨h1, (calculatePoseFromFace_spec face640 640 480 0).2.2.2.1 h1,
    h2, (calculatePoseFromFace_spec faceNeg 640 480 0).2.2.2.2.1 h2⟩

/-- The source's `hasPoseChanged`: accept unconditionally when no pose has
been recorded yet, otherwise when any one of the three axes differs from the
last recorded pose by strictly more than the threshold (default 2). -/
def hasPoseChanged (newPose : HeadPose) (lastPose : Option HeadPose)
    (threshold : ℝ) : Prop :=
  match lastPose with
  | none => True
  | some last =>
    |newPose.roll - last.roll| > threshold
      ∨ |newPose.pitch - last.pitch| > threshold
      ∨ |newPose.yaw - last.yaw| > threshold

/-- The recorder's state: the `poseHistory` list and the `lastPoseRef`. -/
structure RecorderState where
  poseHistory : List HeadPose
  lastPose : Option HeadPose

/-- The recorder's initial state: empty history, no last pose. -/
def initialRecorderState : RecorderState := { poseHistory := [], lastPose := none }

open Classical in
/-- The recording step inlined in the source's `predictPose`:
`if (hasPoseChanged(pose)) { setPoseHistory(prev => [...prev, pose]); lastPoseRef.current = pose; }`. -/
noncomputable def considerSample (s : RecorderState) (pose : HeadPose)
    (threshold : ℝ) : RecorderState :=
  if hasPoseChanged pose s.lastPose threshold then
    { poseHistory := s.poseHistory ++ [pose], lastPose := some pose }
  else s

/-- The source's `clearHistory`: empties the history and resets the last
recorded pose. -/
def clearHistory (_ : RecorderState) : RecorderState :=
  { poseHistory := [], lastPose := none }

lemma considerSample_accept {s : RecorderState} {p : HeadPose} {t : ℝ}
    (h : hasPoseChanged p s.lastPose t) :
    considerSample s p t = { poseHistory := s.poseHistory ++ [p], lastPose := some p } := by
  unfold considerSample
  exact if_pos h

lemma considerSample_reject {s : RecorderState} {p : HeadPose} {t : ℝ}
    (h : ¬hasPoseChanged p s.lastPose t) :
    considerSample s p t = s := by
  unfold considerSample
  exact if_neg h

lemma not_hasPoseChanged_of_small {c l : HeadPose} {t : ℝ}
    (h1 : |c.roll - l.roll| ≤ t) (h2 : |c.pitch - l.pitch| ≤ t)
    (h3 : |c.yaw - l.yaw| ≤ t) : ¬hasPoseChanged c (some l) t := by
  intro h
  rcases h with h | h | h
  · linarith
  · linarith
  · linarith

lemma hasPoseChanged_of_pitch {c l : HeadPose} {t : ℝ}
    (h : |c.pitch - l.pitch| > t) : hasPoseChanged c (some l) t :=
  Or.inr (Or.inl h)

lemma abs_gt_of (a t : ℝ) (h1 : 0 ≤ a) (h2 : t < a) : |a| > t := by
  rw [abs_of_nonneg h1]
  exact h2

lemma abs_le_of_nonneg_le (a t : ℝ) (h1 : 0 ≤ a) (h2 : a ≤ t) : |a| ≤ t := by
  rw [abs_of_nonneg h1]
  exact h2

/-- C3: the recorder accepts unconditionally when `lastPose` is absent, and
otherwise accepts exactly when some axis differs from the last recorded pose
by strictly more than the threshold; accepting appends the candidate and
updates `lastPose`, rejecting leaves the state unchanged. -/
theorem considerSample_spec (s : RecorderState) (c : HeadPose) (t : ℝ) :
    (s.lastPose = none →
      considerSample s c t
        = { poseHistory := s.poseHistory ++ [c], lastPose := some c })
    ∧ ∀ l : HeadPose, s.lastPose = some l →
        ((|c.roll - l.roll| > t ∨ |c.pitch - l.pitch| > t ∨ |c.yaw - l.yaw| > t) →
          considerSample s c t
            = { poseHistory := s.poseHistory ++ [c], lastPose := some c })
        ∧ (¬(|c.roll - l.roll| > t ∨ |c.pitch - l.pitch| > t ∨ |c.yaw - l.yaw| > t) →
          considerSample s c t = s) := by
  constructor
  · intro h
    apply considerSample_accept
    rw [h]
    exact trivial
  · intro l hl
    constructor
    · intro hcond
      apply considerSample_accept
      rw [hl]
      exact hcond
    · intro hcond
      apply considerSample_reject
      rw [hl]
      exact hcond

/-- A zero pose used in concrete recorder scenarios. -/
noncomputable def pose0 : HeadPose := { roll := 0, pitch := 0, yaw := 0, timestamp := 0 }

/-- A pose whose roll alone exceeds the default threshold w.r.t. `pose0`. -/
noncomputable def poseRoll5 : HeadPose := { roll := 5, pitch := 0, yaw := 0, timestamp := 1 }

/-- Witness for C3: with `lastPose = pose0`, a candidate whose roll differs
by 5 (> 2) is appended and becomes the new `lastPose`. -/
theorem considerSample_spec_witness :
    considerSample { poseHistory := [pose0], lastPose := some pose0 } poseRoll5 2
      = { poseHistory := [pose0, poseRoll5], lastPose := some poseRoll5 } := by
  have h := ((considerSample_spec
    { poseHistory := [pose0], lastPose := some pose0 } poseRoll5 2).2 pose0 rfl).1
  have hcond : |poseRoll5.roll - pose0.roll| > 2
      ∨ |poseRoll5.pitch - pose0.pitch| > 2 ∨ |poseRoll5.yaw - pose0.yaw| > 2 := by
    left
    show |(5 : ℝ) - 0| > 2
    rw [sub_zero]
    exact abs_gt_of 5 2 (by norm_num) (by norm_num)
  rw [h hcond]
  rfl

/-- An operation on the recorder: one `considerSample` call (accept or
reject) or one `clearHistory` call. -/
inductive RecorderOp where
  | consider (pose : HeadPose) (threshold : ℝ)
  | clear

/-- Applies one recorder operation to a state. -/
noncomputable def applyOp (s : RecorderState) : RecorderOp → RecorderState
  | RecorderOp.consider p t => considerSample s p t
  | RecorderOp.clear => clearHistory s

/-- Runs a sequence of recorder operations from the initial state. -/
noncomputable def runRecorder (ops : List RecorderOp) : RecorderState :=
  ops.foldl applyOp initialRecorderState

/-- The C10 invariant: history is empty iff `lastPose` is absent, and
`lastPose`, when present, is the last element of the history. -/
def RecorderInv (s : RecorderState) : Prop :=
  (s.poseHistory = [] ↔ s.lastPose = none)
  ∧ ∀ l : HeadPose, s.lastPose = some l → s.poseHistory.getLast? = some l

lemma recorderInv_initial : RecorderInv initialRecorderState := by
  constructor
  · simp [initialRecorderState]
  · intro l h
    simp [initialRecorderState] at h

lemma recorderInv_applyOp {s : RecorderState} (hs : RecorderInv s)
    (op : RecorderOp) : RecorderInv (applyOp s op) := by
  cases op with
  | clear =>
    constructor
    · simp [applyOp, clearHistory]
    · intro l h
      simp [applyOp, clearHistory] at h
  | consider p t =>
    show RecorderInv (considerSample s p t)
    by_cases h : hasPoseChanged p s.lastPose t
    · rw [considerSample_accept h]
      constructor
      · simp
      · intro l hl
        simp only [Option.some.injEq] at hl
        subst hl
        simp
    · rw [considerSample_reject h]
      exact hs

/-- C10: in every state reachable from the initial state by `considerSample`
and `clearHistory` operations, the history is empty iff `lastPose` is absent,
and a present `lastPose` is exactly the last element of the history. -/
theorem recorder_invariant (ops : List RecorderOp) :
    ((runRecorder ops).poseHistory = [] ↔ (runRecorder ops).lastPose = none)
    ∧ ∀ l : HeadPose, (runRecorder ops).lastPose = some l →
        (runRecorder ops).poseHistory.getLast? = some l := by
  have key : ∀ (ops : List RecorderOp) (s : RecorderState),
      RecorderInv s → RecorderInv (ops.foldl applyOp s) := by
    intro ops
    induction ops with
    | nil => intro s hs; exact hs
    | cons op rest ih => intro s hs; exact ih _ (recorderInv_applyOp hs op)
  exact key ops initialRecorderState recorderInv_initial

/-- Witness for C10: after one accepted sample, `lastPose` is the last
history element. -/
theorem recorder_invariant_witness :
    (runRecorder [RecorderOp.consider pose0 2]).poseHistory.getLast? = some pose0 := by
  apply (recorder_invariant [RecorderOp.consider pose0 2]).2 pose0
  show (considerSample initialRecorderState pose0 2).lastPose = some pose0
  rw [considerSample_accept
    (show hasPoseChanged pose0 initialRecorderState.lastPose 2 from trivial)]

/-- C9 (amended): with threshold 2 and a pose sequence in which roll and yaw
stay fixed and every pitch stays within 2° of the first (hence last-recorded)
pose's pitch, no sample after the first is ever recorded; and from any state
with a recorded last pose, a single 3° pitch jump is recorded exactly once
(feeding the jumped pose again changes nothing). -/
theorem recorder_deadband_spec :
    (∀ (p0 : HeadPose) (ps : List HeadPose),
      (∀ p ∈ ps, p.roll = p0.roll ∧ p.yaw = p0.yaw ∧ |p.pitch - p0.pitch| ≤ 2) →
      (ps.foldl (fun s p => considerSample s p 2)
        (considerSample initialRecorderState p0 2)).poseHistory = [p0])
    ∧ (∀ (s : RecorderState) (l c : HeadPose), s.lastPose = some l →
        c.roll = l.roll → c.yaw = l.yaw → c.pitch = l.pitch + 3 →
        considerSample s c 2
          = { poseHistory := s.poseHistory ++ [c], lastPose := some c }
        ∧ considerSample (considerSample s c 2) c 2 = considerSample s c 2) := by
  constructor
  · intro p0 ps hps
    have h0 : considerSample initialRecorderState p0 2
        = { poseHistory := [p0], lastPose := some p0 } := by
      rw [considerSample_accept
        (show hasPoseChanged p0 initialRecorderState.lastPose 2 from trivial)]
      rfl
    rw [h0]
    have key : ∀ qs : List HeadPose,
        (∀ p ∈ qs, p.roll = p0.roll ∧ p.yaw = p0.yaw ∧ |p.pitch - p0.pitch| ≤ 2) →
        qs.foldl (fun s p => considerSample s p 2)
          { poseHistory := [p0], lastPose := some p0 }
          = { poseHistory := [p0], lastPose := some p0 } := by
      intro qs
      induction qs with
      | nil => intro _; rfl
      | cons q rest ih =>
        intro hmem
        have hq := hmem q (List.mem_cons_self q rest)
        have hrej : ¬hasPoseChanged q (some p0) 2 := by
          apply not_hasPoseChanged_of_small
          · rw [hq.1, sub_self, abs_zero]; norm_num
          · exact hq.2.2
          · rw [hq.2.1, sub_self, abs_zero]; norm_num
        have hstep : considerSample
            { poseHistory := [p0], lastPose := some p0 } q 2
            = { poseHistory := [p0], lastPose := some p0 } :=
          considerSample_reject hrej
        simp only [List.foldl_cons]
        rw [hstep]
        exact ih (fun p hp => hmem p (List.mem_cons_of_mem q hp))
    rw [key ps hps]
  · intro s l c hl hr hy hp
    have hacc : hasPoseChanged c s.lastPose 2 := by
      rw [hl]
      apply hasPoseChanged_of_pitch
      rw [hp, add_sub_cancel_left]
      exact abs_gt_of 3 2 (by norm_num) (by norm_num)
    have e1 := considerSample_accept hacc
    refine ⟨e1, ?_⟩
    rw [e1]
    apply considerSample_reject
    apply not_hasPoseChanged_of_small
    · rw [sub_self, abs_zero]; norm_num
    · rw [sub_self, abs_zero]; norm_num
    · rw [sub_self, abs_zero]; norm_num

/-- A pose in which only the pitch varies. -/
noncomputable def pitchPose (x : ℝ) (t : ℤ) : HeadPose :=
  { roll := 0, pitch := x, yaw := 0, timestamp := t }

/-- Witness for C9: a one-step sequence whose pitch stays within the deadband
leaves the history at the first sample only, and a concrete 3° pitch jump
from a recorded pose is appended exactly once. -/
theorem recorder_deadband_spec_witness :
    ([pitchPose 1 1].foldl (fun s p => considerSample s p 2)
      (considerSample initialRecorderState (pitchPose 0 0) 2)).poseHistory
        = [pitchPose 0 0]
    ∧ considerSample { poseHistory := [pitchPose 0 0], lastPose := some (pitchPose 0 0) }
        (pitchPose 3 3) 2
        = { poseHistory := [pitchPose 0 0, pitchPose 3 3], lastPose := some (pitchPose 3 3) } := by
  constructor
  · apply recorder_deadband_spec.1 (pitchPose 0 0) [pitchPose 1 1]
    intro p hp
    rw [List.mem_singleton] at hp
    subst hp
    refine ⟨rfl, rfl, ?_⟩
    show |(1 : ℝ) - 0| ≤ 2
    rw [sub_zero]
    exact abs_le_of_nonneg_le 1 2 (by norm_num) (by norm_num)
  · have h := (recorder_deadband_spec.2
      { poseHistory := [pitchPose 0 0], lastPose := some (pitchPose 0 0) }
      (pitchPose 0 0) (pitchPose 3 3) rfl rfl rfl (by show (3 : ℝ) = 0 + 3; norm_num)).1
    rw [h]
    rfl

/-- Counterexample for C9 as stated: with threshold 2, the pitch sequence
0°, 1°, 2°, 3° (each step differing from the previous by 1°) records a
second sample at pitch 3°, because the 1°-per-step drift accumulates to more
than 2° relative to the last recorded pose. -/
theorem recorder_drift_records_again :
    (([pitchPose 1 1, pitchPose 2 2, pitchPose 3 3].foldl
      (fun s p => considerSample s p 2)
      (considerSample initialRecorderState (pitchPose 0 0) 2)).poseHistory).length = 2 := by
  have h0 : considerSample initialRecorderState (pitchPose 0 0) 2
      = { poseHistory := [pitchPose 0 0], lastPose := some (pitchPose 0 0) } := by
    rw [considerSample_accept
      (show hasPoseChanged (pitchPose 0 0) initialRecorderState.lastPose 2 from trivial)]
    rfl
  have hrej1 : ¬hasPoseChanged (pitchPose 1 1) (some (pitchPose 0 0)) 2 := by
    apply not_hasPoseChanged_of_small
    · show |(0 : ℝ) - 0| ≤ 2
      rw [sub_self, abs_zero]; norm_num
    · show |(1 : ℝ) - 0| ≤ 2
      rw [sub_zero]
      exact abs_le_of_nonneg_le 1 2 (by norm_num) (by norm_num)
    · show |(0 : ℝ) - 0| ≤ 2
      rw [sub_self, abs_zero]; norm_num
  have hrej2 : ¬hasPoseChanged (pitchPose 2 2) (some (pitchPose 0 0)) 2 := by
    apply not_hasPoseChanged_of_small
    · show |(0 : ℝ) - 0| ≤ 2
      rw [sub_self, abs_zero]; norm_num
    · show |(2 : ℝ) - 0| ≤ 2
      rw [sub_zero]
      exact abs_le_of_nonneg_le 2 2 (by norm_num) (by norm_num)
    · show |(0 : ℝ) - 0| ≤ 2
      rw [sub_self, abs_zero]; norm_num
  have hacc3 : hasPoseChanged (pitchPose 3 3) (some (pitchPose 0 0)) 2 := by
    apply hasPoseChanged_of_pitch
    show |(3 : ℝ) - 0| > 2
    rw [sub_zero]
    exact abs_gt_of 3 2 (by norm_num) (by norm_num)
  have s1 : considerSample
      { poseHistory := [pitchPose 0 0], lastPose := some (pitchPose 0 0) }
      (pitchPose 1 1) 2
      = { poseHistory := [pitchPose 0 0], lastPose := some (pitchPose 0 0) } :=
    considerSample_reject hrej1
  have s2 : considerSample
      { poseHistory := [pitchPose 0 0], lastPose := some (pitchPose 0 0) }
      (pitchPose 2 2) 2
      = { poseHistory := [pitchPose 0 0], lastPose := some (pitchPose 0 0) } :=
    considerSample_reject hrej2
  have s3 : considerSample
      { poseHistory := [pitchPose 0 0], lastPose := some (pitchPose 0 0) }
      (pitchPose 3 3) 2
      = { poseHistory := [pitchPose 0 0] ++ [pitchPose 3 3],
          lastPose := some (pitchPose 3 3) } :=
    considerSample_accept hacc3
  rw [h0]
  simp only [List.foldl_cons, List.foldl_nil]
  rw [s1, s2, s3]
  rfl

/-- The per-detection part of the source's `predictPose` loop: when the
detector returns at least one face, `calculatePoseFromFace` is invoked on it
unconditionally (there is no degenerate-geometry check) and the resulting
pose is offered to the recorder with the default threshold 2. -/
noncomputable def predictPoseTick (predictions : List BlazeFace)
    (videoWidth videoHeight : ℝ) (now : ℤ) (s : RecorderState) :
    Option HeadPose × RecorderState :=
  match predictions with
  | [] => (none, s)
  | face :: _ =>
    let pose := calculatePoseFromFace face videoWidth videoHeight now
    (some pose, considerSample s pose 2)

/-- C7 (amended): a detection whose bounding box has zero width or zero
height is not rejected: the tick still produces a pose for it, and with no
previously recorded pose that pose is appended to the history. -/
theorem zero_area_box_not_rejected (face : BlazeFace) (rest : List BlazeFace)
    (W H : ℝ) (now : ℤ) (s : RecorderState)
    (_hdeg : face.bottomRight.1 - face.topLeft.1 = 0
      ∨ face.bottomRight.2 - face.topLeft.2 = 0) :
    (predictPoseTick (face :: rest) W H now s).1
      = some (calculatePoseFromFace face W H now)
    ∧ (s.lastPose = none →
        (predictPoseTick (face :: rest) W H now s).2.poseHistory
          = s.poseHistory ++ [calculatePoseFromFace face W H now]) := by
  constructor
  · rfl
  · intro h
    show (considerSample s (calculatePoseFromFace face W H now) 2).poseHistory = _
    rw [considerSample_accept (show hasPoseChanged _ s.lastPose 2 by rw [h]; exact trivial)]

/-- A detection whose bounding box has zero width. -/
noncomputable def degenerateFace : BlazeFace :=
  { topLeft := (100, 100), bottomRight := (100, 200), rightEye := (90, 120),
    leftEye := (110, 120), nose := (100, 150), mouth := (100, 170),
    rightEar := (80, 130), leftEar := (120, 130) }

/-- Counterexample for C7 as stated: a zero-width detection is not rejected;
the tick produces a pose for it and records it into the history. -/
theorem zero_area_box_pose_recorded :
    degenerateFace.bottomRight.1 - degenerateFace.topLeft.1 = 0
    ∧ (predictPoseTick [degenerateFace] 640 480 0 initialRecorderState).1 ≠ none
    ∧ (predictPoseTick [degenerateFace] 640 480 0 initialRecorderState).2.poseHistory ≠ [] := by
  refine ⟨by norm_num [degenerateFace], ?_, ?_⟩
  · show some (calculatePoseFromFace degenerateFace 640 480 0) ≠ none
    simp
  · show (considerSample initialRecorderState
      (calculatePoseFromFace degenerateFace 640 480 0) 2).poseHistory ≠ []
    rw [considerSample_accept
      (show hasPoseChanged (calculatePoseFromFace degenerateFace 640 480 0)
        initialRecorderState.lastPose 2 from trivial)]
    simp

/-- Witness for C7 at the concrete zero-width detection. -/
theorem zero_area_box_not_rejected_witness :
    (degenerateFace.bottomRight.1 - degenerateFace.topLeft.1 = 0
      ∨ degenerateFace.bottomRight.2 - degenerateFace.topLeft.2 = 0)
    ∧ (predictPoseTick [degenerateFace] 640 480 0 initialRecorderState).1
        = some (calculatePoseFromFace degenerateFace 640 480 0)
    ∧ (predictPoseTick [degenerateFace] 640 480 0 initialRecorderState).2.poseHistory
        = initialRecorderState.poseHistory
            ++ [calculatePoseFromFace degenerateFace 640 480 0] := by
  have hdeg : degenerateFace.bottomRight.1 - degenerateFace.topLeft.1 = 0
      ∨ degenerateFace.bottomRight.2 - degenerateFace.topLeft.2 = 0 :=
    Or.inl (by norm_num [degenerateFace])
  have h := zero_area_box_not_rejected degenerateFace [] 640 480 0
    initialRecorderState hdeg
  exact ⟨hdeg, h.1, h.2 rfl⟩

/-- Model of JavaScript `Array.prototype.join(sep)`. -/
def joinSep (sep : String) : List String → String
  | [] => ""
  | [a] => a
  | a :: b :: t => a ++ sep ++ joinSep sep (b :: t)

lemma joinSep_cons_cons (sep a b : String) (t : List String) :
    joinSep sep (a :: b :: t) = a ++ sep ++ joinSep sep (b :: t) := rfl

def pad2 (n : ℕ) : String := (if n < 10 then "0" else "") ++ toString n

def pad3 (n : ℕ) : String :=
  (if n < 10 then "00" else if n < 100 then "0" else "") ++ toString n

def pad4 (n : ℕ) : String :=
  (if n < 10 then "000" else if n < 100 then "00" else if n < 1000 then "0" else "")
    ++ toString n

/-- Model of the JavaScript `Date#toISOString` builtin: renders a millisecond
epoch timestamp as a UTC ISO-8601 string, via the standard proleptic
Gregorian civil-from-days conversion. -/
def toISOString (ms : ℤ) : String :=
  let days := ms.fdiv 86400000
  let msOfDay := (ms - days * 86400000).toNat
  let z := days + 719468
  let era := z.fdiv 146097
  let doe := (z - era * 146097).toNat
  let yoe := (doe - doe / 1460 + doe / 36524 - doe / 146096) / 365
  let y : ℤ := (yoe : ℤ) + era * 400
  let doy := doe - (365 * yoe + yoe / 4 - yoe / 100)
  let mp := (5 * doy + 2) / 153
  let d := doy - (153 * mp + 2) / 5 + 1
  let m := if mp < 10 then mp + 3 else mp - 9
  let year : ℤ := if m ≤ 2 then y + 1 else y
  let hour := msOfDay / 3600000
  let minute := msOfDay % 3600000 / 60000
  let second := msOfDay % 60000 / 1000
  let milli := msOfDay % 1000
  pad4 year.toNat ++ "-" ++ pad2 m ++ "-" ++ pad2 d ++ "T" ++ pad2 hour ++ ":"
    ++ pad2 minute ++ ":" ++ pad2 second ++ "." ++ pad3 milli ++ "Z"

/-- Model of JavaScript `Number#toFixed(2)`: rounds to two decimal places
(half away from zero) and renders with exactly two fractional digits. -/
noncomputable def toFixed2 (x : ℝ) : String :=
  let n : ℤ := if 0 ≤ x then ⌊x * 100 + 1 / 2⌋ else -⌊(-x) * 100 + 1 / 2⌋
  (if n < 0 then "-" else "") ++ toString (n.natAbs / 100) ++ "."
    ++ (if n.natAbs % 100 < 10 then "0" else "") ++ toString (n.natAbs % 100)

/-- One row of the richer exporter: raw epoch timestamp, ISO date, and the
three angles at fixed 2-decimal precision. -/
noncomputable def csvRow (pose : HeadPose) : String :=
  toString pose.timestamp ++ "," ++ toISOString pose.timestamp ++ ","
    ++ toFixed2 pose.roll ++ "," ++ toFixed2 pose.pitch ++ "," ++ toFixed2 pose.yaw

/-- The richer exporter's header, with its trailing newline as in the source. -/
def csvHeader : String := "Timestamp,Date,Roll,Pitch,Yaw\n"

/-- The source's `exportToCSV`: alerts (produces no artifact) on an empty
history, otherwise emits the header followed by the joined rows. -/
noncomputable def exportToCSV (poseHistory : List HeadPose) : Option String :=
  if poseHistory.length = 0 then none
  else some (csvHeader ++ joinSep "\n" (poseHistory.map csvRow))

/-- A sample of the simpler (feature-vector) pipeline: ISO timestamp string
and raw angles, as in the source's `HeadPoseData`. -/
structure HeadPoseData where
  timestamp : String
  roll : ℝ
  pitch : ℝ
  yaw : ℝ

/-- The source's `downloadCSV`: alerts on an empty record list, otherwise
joins the single-element header list (whose element already ends in a
newline) and the raw-precision rows with newlines.  `render` models the
JavaScript default number-to-string coercion of its template literal. -/
def downloadCSV (render : ℝ → String) (recordedData : List HeadPoseData) :
    Option String :=
  if recordedData.length = 0 then none
  else some (joinSep "\n" ("Timestamp,Roll,Pitch,Yaw\n"
    :: recordedData.map (fun d =>
        d.timestamp ++ "," ++ render d.roll ++ "," ++ render d.pitch
          ++ "," ++ render d.yaw)))

/-- C5 (amended): both exporters fail exactly on an empty history; the richer
`exportToCSV` emits the header followed by one `csvRow` per sample in
insertion order (epoch + ISO timestamp, 2-decimal angles); the simpler
`downloadCSV` keeps the trailing newline of its header element when joining,
so its header is followed by a blank line, and its rows are rendered at raw
precision rather than fixed 2-decimal. -/
theorem export_history_spec :
    (∀ h : List HeadPose, exportToCSV h = none ↔ h = [])
    ∧ (∀ h : List HeadPose, h ≠ [] →
        exportToCSV h = some (csvHeader ++ joinSep "\n" (h.map csvRow))
        ∧ (h.map csvRow).length = h.length
        ∧ ∀ (k : ℕ) (p : HeadPose), h[k]? = some p →
            (h.map csvRow)[k]? = some (csvRow p))
    ∧ (∀ (render : ℝ → String) (data : List HeadPoseData),
        downloadCSV render data = none ↔ data = [])
    ∧ (∀ (render : ℝ → String) (d : HeadPoseData) (rest : List HeadPoseData),
        downloadCSV render (d :: rest)
          = some ("Timestamp,Roll,Pitch,Yaw\n" ++ "\n"
              ++ joinSep "\n" ((d :: rest).map (fun r =>
                  r.timestamp ++ "," ++ render r.roll ++ "," ++ render r.pitch
                    ++ "," ++ render r.yaw)))) := by
  refine ⟨?_, ?_, ?_, ?_⟩
  · intro h
    cases h with
    | nil => simp [exportToCSV]
    | cons a t => simp [exportToCSV]
  · intro h hne
    have hlen : ¬h.length = 0 := fun hl => hne (List.length_eq_zero.mp hl)
    refine ⟨?_, List.length_map h csvRow, ?_⟩
    · unfold exportToCSV
      rw [if_neg hlen]
    · intro k p hk
      rw [List.getElem?_map, hk, Option.map_some']
  · intro render data
    cases data with
    | nil => simp [downloadCSV]
    | cons a t => simp [downloadCSV]
  · intro render d rest
    unfold downloadCSV
    rw [if_neg (by simp)]
    rw [List.map_cons, joinSep_cons_cons]

/-- Witness for C5 at a concrete one-sample history. -/
theorem export_history_spec_witness :
    ([pose0] ≠ ([] : List HeadPose))
    ∧ exportToCSV [pose0] = some (csvHeader ++ joinSep "\n" ([pose0].map csvRow)) := by
  have hne : [pose0] ≠ ([] : List HeadPose) := by simp
  exact ⟨hne, (export_history_spec.2.1 [pose0] hne).1⟩

/-- A concrete sample for the simpler exporter. -/
noncomputable def sampleData : HeadPoseData :=
  { timestamp := "t0", roll := 1.005, pitch := -2, yaw := 90.004 }

/-- Counterexample for C5 as stated: the simpler exporter's output on a
one-sample history has the header followed by a blank line (its text splits
into three lines, the second of which is empty), not by exactly the one
sample row; the sample row itself carries raw-precision fields rather than a
fixed 2-decimal rendering. -/
theorem downloadCSV_blank_line :
    downloadCSV (fun _ => "1") [sampleData]
      = some ("Timestamp,Roll,Pitch,Yaw\n" ++ "\n" ++ "t0,1,1,1")
    ∧ ("Timestamp,Roll,Pitch,Yaw\n" ++ "\n" ++ "t0,1,1,1").data[24]? = some (Char.ofNat 10)
    ∧ ("Timestamp,Roll,Pitch,Yaw\n" ++ "\n" ++ "t0,1,1,1").data[25]? = some (Char.ofNat 10) := by
  refine ⟨?_, ?_, ?_⟩ <;> rfl

/-- The externally loaded scaler parameters (`scaler_params.json`). -/
structure ScalerParams where
  mean : List ℝ
  scale : List ℝ

/-- The indexed traversal of the source's
`features.map((f, i) => (f - scaler.mean[i]) / scaler.scale[i])`; an
out-of-range parameter access is modelled with the junk default 0. -/
noncomputable def standardizeAux (mean scale : List ℝ) : ℕ → List ℝ → List ℝ
  | _, [] => []
  | i, f :: rest =>
    (f - mean.getD i 0) / scale.getD i 0 :: standardizeAux mean scale (i + 1) rest

/-- The source's `standardizeFeatures`: identity pass-through when the scaler
is absent, per-index affine rescaling otherwise. -/
noncomputable def standardizeFeatures (features : List ℝ)
    (scaler : Option ScalerParams) : List ℝ :=
  match scaler with
  | none => features
  | some s => standardizeAux s.mean s.scale 0 features

/-- Modelled from the spec: the de-standardization `(F'[k]·scale[k]) + mean[k]`
of the round-trip property (the source has no such inverse). -/
noncomputable def destandardizeAux (mean scale : List ℝ) : ℕ → List ℝ → List ℝ
  | _, [] => []
  | i, f :: rest =>
    (f * scale.getD i 0 + mean.getD i 0) :: destandardizeAux mean scale (i + 1) rest

/-- Modelled from the spec: elementwise inverse of the standardizer. -/
noncomputable def destandardizeFeatures (features mean scale : List ℝ) : List ℝ :=
  destandardizeAux mean scale 0 features

lemma standardizeAux_getElem? (mean scale : List ℝ) :
    ∀ (F : List ℝ) (i k : ℕ),
      (standardizeAux mean scale i F)[k]?
        = (F[k]?).map (fun f => (f - mean.getD (i + k) 0) / scale.getD (i + k) 0) := by
  intro F
  induction F with
  | nil => intro i k; simp [standardizeAux]
  | cons f rest ih =>
    intro i k
    cases k with
    | zero => simp [standardizeAux]
    | succ k2 =>
      simp only [standardizeAux, List.getElem?_cons_succ]
      rw [ih (i + 1) k2]
      have harith : i + 1 + k2 = i + (k2 + 1) := by omega
      rw [harith]

lemma destandardizeAux_getElem? (mean scale : List ℝ) :
    ∀ (F : List ℝ) (i k : ℕ),
      (destandardizeAux mean scale i F)[k]?
        = (F[k]?).map (fun f => f * scale.getD (i + k) 0 + mean.getD (i + k) 0) := by
  intro F
  induction F with
  | nil => intro i k; simp [destandardizeAux]
  | cons f rest ih =>
    intro i k
    cases k with
    | zero => simp [destandardizeAux]
    | succ k2 =>
      simp only [destandardizeAux, List.getElem?_cons_succ]
      rw [ih (i + 1) k2]
      have harith : i + 1 + k2 = i + (k2 + 1) := by omega
      rw [harith]

/-- C4: with the scaler absent the standardizer is the identity; with a
loaded scaler of matching lengths, element k of the output is
`(F[k] - mean[k]) / scale[k]`. -/
theorem standardizeFeatures_spec :
    (∀ F : List ℝ, standardizeFeatures F none = F)
    ∧ (∀ (F : List ℝ) (s : ScalerParams),
        F.length = s.mean.length → F.length = s.scale.length →
        ∀ (k : ℕ) (f m sc : ℝ), F[k]? = some f → s.mean[k]? = some m →
          s.scale[k]? = some sc →
          (standardizeFeatures F (some s))[k]? = some ((f - m) / sc)) := by
  constructor
  · intro F
    rfl
  · intro F s _ _ k f m sc hf hm hsc
    show (standardizeAux s.mean s.scale 0 F)[k]? = _
    rw [standardizeAux_getElem?, hf, Option.map_some']
    rw [show 0 + k = k from by omega]
    rw [getD_eq_of_get? 0 hm, getD_eq_of_get? 0 hsc]

/-- Witness for C4 at a concrete feature vector and scaler. -/
theorem standardizeFeatures_spec_witness :
    standardizeFeatures [(3 : ℝ), 5] none = [(3 : ℝ), 5]
    ∧ (standardizeFeatures [(3 : ℝ), 5] (some ⟨[1, 1], [2, 2]⟩))[0]?
        = some (((3 : ℝ) - 1) / 2) :=
  ⟨standardizeFeatures_spec.1 [(3 : ℝ), 5],
    standardizeFeatures_spec.2 [(3 : ℝ), 5] ⟨[1, 1], [2, 2]⟩ rfl rfl 0 3 1 2 rfl rfl rfl⟩

/-- C8: standardization round-trips: for matching lengths and a scaler with
no zero entries, de-standardizing the standardized vector reconstructs the
input exactly. -/
theorem standardize_roundtrip (F : List ℝ) (s : ScalerParams)
    (hm : F.length = s.mean.length) (hsc : F.length = s.scale.length)
    (hnz : ∀ x ∈ s.scale, x ≠ 0) :
    destandardizeFeatures (standardizeFeatures F (some s)) s.mean s.scale = F := by
  apply List.ext_getElem?
  intro k
  show (destandardizeAux s.mean s.scale 0 (standardizeAux s.mean s.scale 0 F))[k]? = F[k]?
  rw [destandardizeAux_getElem?, standardizeAux_getElem?]
  simp only [Nat.zero_add]
  cases hF : F[k]? with
  | none => simp
  | some f =>
    simp only [Option.map_some']
    have hk : k < F.length := by
      by_contra hk
      rw [get?_eq_none_of_ge F k (by omega)] at hF
      exact Option.noConfusion hF
    have hmem : s.scale.getD k 0 ∈ s.scale := by
      have hg := get?_eq_some_getD s.scale 0 k (by omega)
      exact List.mem_iff_getElem?.mpr ⟨k, hg⟩
    have hnz' : s.scale.getD k 0 ≠ 0 := hnz _ hmem
    rw [div_mul_cancel₀ _ hnz', sub_add_cancel]

/-- Witness for C8 at a concrete feature vector and scaler. -/
theorem standardize_roundtrip_witness :
    destandardizeFeatures
      (standardizeFeatures [(3 : ℝ), 5] (some ⟨[1, 1], [2, 2]⟩)) [1, 1] [2, 2]
      = [(3 : ℝ), 5] := by
  apply standardize_roundtrip [(3 : ℝ), 5] ⟨[1, 1], [2, 2]⟩ rfl rfl
  intro x hx
  have : x = 2 ∨ x = 2 := by simpa using hx
  rcases this with rfl | rfl
  · norm_num
  · norm_num
